import Mathlib

/- Shallow embedding of the internal-transfer-service core (Go + PostgreSQL).

   Sources embedded:
   - internal/errors (error codes and predefined errors)
   - internal/domain (Account, Transaction)
   - internal/repository (account repository, transaction repository,
     Store.WithTransaction)
   - internal/service (AccountService.CreateAccount / GetAccount,
     TransactionService.Transfer / parseAccountIDs / validateTransfer)

   Modelling conventions:
   - decimal.Decimal (shopspring, arbitrary-precision base-10, exact
     add/sub/compare; stored as DECIMAL(20,8)) is modelled as Rat;
   - int64 account identities are modelled as Int, with the explicit
     64-bit range check of strconv.ParseInt in the string parser;
   - uuid.UUID values (transaction ids, idempotency keys) are modelled as
     Nat; uuid.New() is modelled by a caller-supplied fresh value;
   - time.Now() is modelled by a caller-supplied Nat clock value;
   - the database is a pair of row lists; a SQL SELECT ... WHERE key = $1
     is List.find?, an UPDATE ... WHERE key = $1 is List.map guarded on
     the key; BEGIN/COMMIT/ROLLBACK of Store.WithTransaction is modelled
     by state passing: the callback runs on the current state, an error
     discards the callback's writes (rollback), success keeps them
     (commit);
   - row-lock acquisitions (SELECT ... FOR UPDATE) and the unit-of-work
     boundary are recorded in an event trace so that ordering claims are
     statable. -/

inductive ErrorCode where
  | invalidInput
  | accountNotFound
  | insufficientBalance
  | duplicateAccount
  | duplicateTransaction
  | invalidAmount
  | sameAccountTransfer
  | internalError
  deriving DecidableEq, Repr

/-- Mirrors internal/errors.AppError (code + message; details omitted —
they are only ever set on internalError paths). -/
structure AppError where
  code : ErrorCode
  message : String
  deriving DecidableEq, Repr

def ErrInvalidAccountID : AppError := ⟨.invalidInput, "invalid account ID"⟩

def ErrAccountNotFound : AppError := ⟨.accountNotFound, "account not found"⟩

def ErrInsufficientBalance : AppError := ⟨.insufficientBalance, "insufficient balance"⟩

def ErrDuplicateAccount : AppError := ⟨.duplicateAccount, "account already exists"⟩

def ErrDuplicateTransaction : AppError := ⟨.duplicateTransaction, "transaction already processed"⟩

def ErrInvalidAmount : AppError := ⟨.invalidAmount, "invalid amount"⟩

def ErrSameAccountTransfer : AppError := ⟨.sameAccountTransfer, "source and destination accounts cannot be the same"⟩

/-- Mirrors internal/domain.Account (id int64, balance decimal, timestamps). -/
structure Account where
  id : Int
  balance : Rat
  createdAt : Nat
  updatedAt : Nat
  deriving DecidableEq, Repr

/-- Mirrors internal/domain.Transaction; the idempotency key is the
nullable column idempotency_key (migration V4), i.e. an optional value. -/
structure Transaction where
  id : Nat
  sourceAccountID : Int
  destinationAccountID : Int
  amount : Rat
  idempotencyKey : Option Nat
  status : String
  createdAt : Nat
  updatedAt : Nat
  deriving DecidableEq, Repr

/-- The durable state: the accounts table and the transactions table. -/
structure DB where
  accounts : List Account
  transactions : List Transaction
  deriving DecidableEq, Repr

/-- Observable storage events: unit-of-work boundary and row-lock
acquisitions (SELECT ... FOR UPDATE on an existing row). -/
inductive Event where
  | uowBegin
  | lockAcquire (id : Int)
  | uowCommit
  | uowRollback
  deriving DecidableEq, Repr

namespace accountRepo

/-- accountRepository.GetAccount / scanAccount: SELECT ... WHERE id = $1;
sql.ErrNoRows becomes ErrAccountNotFound at the caller, modelled here as
none. -/
def GetAccount (db : DB) (id : Int) : Option Account :=
  db.accounts.find? (fun a => a.id = id)

/-- accountRepository.GetAccountForUpdate: same row lookup as GetAccount,
with FOR UPDATE; the lock acquisition itself is recorded in the caller's
event trace. -/
def GetAccountForUpdate (db : DB) (id : Int) : Option Account :=
  GetAccount db id

/-- accountRepository.UpdateAccountBalance: UPDATE accounts SET balance,
updated_at WHERE id = $.; zero rows affected yields ErrAccountNotFound. -/
def UpdateAccountBalance (db : DB) (id : Int) (newBalance : Rat) (now : Nat) :
    Except AppError DB :=
  if db.accounts.any (fun a => a.id = id) then
    .ok { db with
          accounts := db.accounts.map (fun a =>
            if a.id = id then { a with balance := newBalance, updatedAt := now } else a) }
  else
    .error ErrAccountNotFound

/-- accountRepository.CreateAccount: INSERT INTO accounts; the primary-key
uniqueness constraint (pq error 23505) surfaces as ErrDuplicateAccount.
The inserted row gets created_at = updated_at = now; the Go struct passed
in is returned to the service without its timestamps being set back. -/
def CreateAccount (db : DB) (account : Account) (now : Nat) : Except AppError DB :=
  if db.accounts.any (fun a => a.id = account.id) then
    .error ErrDuplicateAccount
  else
    .ok { db with
          accounts := db.accounts ++ [{ account with createdAt := now, updatedAt := now }] }

end accountRepo

namespace transactionRepo

/-- transactionRepository.GetTransactionByIDempotencyKey: SELECT ... WHERE
idempotency_key = $1 with a non-null key; none for sql.ErrNoRows. -/
def GetTransactionByIDempotencyKey (db : DB) (key : Nat) : Option Transaction :=
  db.transactions.find? (fun t => t.idempotencyKey = some key)

/-- transactionRepository.CreateTransaction: INSERT INTO transactions; the
partial unique index idx_transactions_idempotency_key over non-null keys
(migration V4) surfaces as ErrDuplicateTransaction; created_at and
updated_at of the stored row are set to now (and, in the Go code, written
back into the passed struct). -/
def CreateTransaction (db : DB) (t : Transaction) (now : Nat) : Except AppError DB :=
  match t.idempotencyKey with
  | some k =>
      if db.transactions.any (fun u => u.idempotencyKey = some k) then
        .error ErrDuplicateTransaction
      else
        .ok { db with
              transactions := db.transactions ++ [{ t with createdAt := now, updatedAt := now }] }
  | none =>
      .ok { db with
            transactions := db.transactions ++ [{ t with createdAt := now, updatedAt := now }] }

/-- transactionRepository.UpdateTransactionStatus: UPDATE transactions SET
status, updated_at WHERE id = $3; no error on zero affected rows. -/
def UpdateTransactionStatus (db : DB) (id : Nat) (status : String) (now : Nat) :
    Except AppError DB :=
  .ok { db with
        transactions := db.transactions.map (fun t =>
          if t.id = id then { t with status := status, updatedAt := now } else t) }

end transactionRepo

namespace store

/-- Store.WithTransaction, specialised to a callback producing a result
value and an event trace: BEGIN, run the callback on the current state,
ROLLBACK (discard the callback's writes) if it returns an error, COMMIT
(keep them) otherwise. The trace records the boundary events around the
callback's own events. -/
def WithTransaction (db : DB)
    (fn : DB → Except AppError Transaction × DB × List Event) :
    Except AppError Transaction × DB × List Event :=
  match fn db with
  | (.error e, _, evs) => (.error e, db, Event.uowBegin :: evs ++ [Event.uowRollback])
  | (.ok t, db', evs) => (.ok t, db', Event.uowBegin :: evs ++ [Event.uowCommit])

end store

namespace accountService

/-- AccountService.CreateAccount: validations in source order (negative
balance, balance ceiling 10_000_000_000, non-positive id), then the
repository insert; on success the service returns its own Account struct,
whose timestamps were never set (zero values). -/
def CreateAccount (db : DB) (accountID : Int) (initialBalance : Rat) (now : Nat) :
    Except AppError Account × DB :=
  if initialBalance < 0 then
    (.error ErrInvalidAmount, db)
  else if initialBalance > 10000000000 then
    (.error ⟨.invalidAmount, "initial balance exceeds maximum limit"⟩, db)
  else if accountID ≤ 0 then
    (.error ⟨.invalidInput, "account ID must be positive"⟩, db)
  else
    let account : Account := { id := accountID, balance := initialBalance,
                               createdAt := 0, updatedAt := 0 }
    match accountRepo.CreateAccount db account now with
    | .error e => (.error e, db)
    | .ok db' => (.ok account, db')

/-- strconv.ParseInt(s, 10, 64): optional sign, non-empty ASCII digit
string, result within the int64 range. -/
def parseInt64 (s : String) : Option Int :=
  let cs := s.toList
  let signDigits : Int × List Char :=
    match cs with
    | '+' :: rest => (1, rest)
    | '-' :: rest => (-1, rest)
    | _ => (1, cs)
  let sign := signDigits.1
  let ds := signDigits.2
  if ds.isEmpty then
    none
  else if ds.all Char.isDigit then
    let n : Nat := ds.foldl (fun acc c => acc * 10 + (c.toNat - '0'.toNat)) 0
    let v : Int := sign * (n : Int)
    if -(2 ^ 63) ≤ v ∧ v ≤ 2 ^ 63 - 1 then some v else none
  else
    none

/-- AccountService.GetAccount: parse the identity string (ParseInt, 10,
64; error or non-positive gives ErrInvalidAccountID), then the plain
repository read. -/
def GetAccount (db : DB) (accountID : String) : Except AppError Account :=
  match parseInt64 accountID with
  | none => .error ErrInvalidAccountID
  | some id =>
      if id ≤ 0 then .error ErrInvalidAccountID
      else
        match accountRepo.GetAccount db id with
        | none => .error ErrAccountNotFound
        | some a => .ok a

end accountService

namespace transactionService

/-- TransactionService.TransferRequest: string identities as sent by the
handler, a decimal amount, and the optional idempotency key. -/
structure TransferRequest where
  sourceAccountID : String
  destinationAccountID : String
  amount : Rat
  idempotencyKey : Option Nat
  deriving DecidableEq, Repr

/-- TransactionService.parseAccountIDs: each identity must parse as an
int64 and be strictly positive, else ErrInvalidAccountID. -/
def parseAccountIDs (sourceIDStr destIDStr : String) : Except AppError (Int × Int) :=
  match accountService.parseInt64 sourceIDStr with
  | none => .error ErrInvalidAccountID
  | some sourceID =>
      if sourceID ≤ 0 then .error ErrInvalidAccountID
      else
        match accountService.parseInt64 destIDStr with
        | none => .error ErrInvalidAccountID
        | some destID =>
            if destID ≤ 0 then .error ErrInvalidAccountID
            else .ok (sourceID, destID)

/-- TransactionService.validateTransfer: same-account check, then the
amount checks in source order (non-positive, above 1_000_000_000, below
0.01). -/
def validateTransfer (sourceID destID : Int) (amount : Rat) : Except AppError Unit :=
  if sourceID = destID then
    .error ErrSameAccountTransfer
  else if amount < 0 ∨ amount = 0 then
    .error ⟨.invalidAmount, "amount must be positive"⟩
  else if amount > 1000000000 then
    .error ⟨.invalidAmount, "amount exceeds maximum limit"⟩
  else if amount < 1 / 100 then
    .error ⟨.invalidAmount, "amount below minimum limit"⟩
  else
    .ok ()

/-- The service-level idempotency lookup at the top of the WithTransaction
callback: the SQL query compares idempotency_key = $1, so a request
without a key (NULL) matches no row. -/
def lookupIdempotency (db : DB) (key : Option Nat) : Option Transaction :=
  match key with
  | none => none
  | some k => transactionRepo.GetTransactionByIDempotencyKey db k

/-- Lines 230-235 of Transfer: the deterministic lock order, (first,
second) by raw int64 comparison of the two identities. -/
def lockOrder (sourceID destID : Int) : Int × Int :=
  if sourceID < destID then (sourceID, destID) else (destID, sourceID)

/-- Lines 249-257 of Transfer: map the two locked rows back to logical
(source, destination) by comparing identities. -/
def mapLockedRows (firstID sourceID : Int) (firstAccount secondAccount : Account) :
    Account × Account :=
  if firstID = sourceID then (firstAccount, secondAccount)
  else (secondAccount, firstAccount)

/-- The WithTransaction callback of TransactionService.Transfer (lines
215-298): idempotency lookup, ordered locked reads, pending journal row,
balance check (on insufficient funds: set status failed and return
ErrInsufficientBalance), debit/credit, status completed. The returned
Transaction mirrors the Go service's local struct after its in-place
mutations. Events record successful lock acquisitions in call order. -/
def transferBody (sourceID destID : Int) (req : TransferRequest)
    (freshID : Nat) (now : Nat) (db : DB) :
    Except AppError Transaction × DB × List Event :=
  match lookupIdempotency db req.idempotencyKey with
  | some existingTx => (.ok existingTx, db, [])
  | none =>
      let firstID := (lockOrder sourceID destID).1
      let secondID := (lockOrder sourceID destID).2
      match accountRepo.GetAccountForUpdate db firstID with
      | none => (.error ErrAccountNotFound, db, [])
      | some firstAccount =>
          match accountRepo.GetAccountForUpdate db secondID with
          | none => (.error ErrAccountNotFound, db, [Event.lockAcquire firstID])
          | some secondAccount =>
              let locks := [Event.lockAcquire firstID, Event.lockAcquire secondID]
              let sourceAccount := (mapLockedRows firstID sourceID firstAccount secondAccount).1
              let destAccount := (mapLockedRows firstID sourceID firstAccount secondAccount).2
              let pendingTx : Transaction :=
                { id := freshID, sourceAccountID := sourceID,
                  destinationAccountID := destID, amount := req.amount,
                  idempotencyKey := req.idempotencyKey, status := "pending",
                  createdAt := now, updatedAt := now }
              match transactionRepo.CreateTransaction db pendingTx now with
              | .error e => (.error e, db, locks)
              | .ok db1 =>
                  if sourceAccount.balance < req.amount then
                    match transactionRepo.UpdateTransactionStatus db1 pendingTx.id "failed" now with
                    | .error e => (.error e, db1, locks)
                    | .ok db2 => (.error ErrInsufficientBalance, db2, locks)
                  else
                    let newSourceBalance := sourceAccount.balance - req.amount
                    let newDestBalance := destAccount.balance + req.amount
                    match accountRepo.UpdateAccountBalance db1 sourceID newSourceBalance now with
                    | .error e => (.error e, db1, locks)
                    | .ok db2 =>
                        match accountRepo.UpdateAccountBalance db2 destID newDestBalance now with
                        | .error e => (.error e, db2, locks)
                        | .ok db3 =>
                            match transactionRepo.UpdateTransactionStatus db3 pendingTx.id "completed" now with
                            | .error e => (.error e, db3, locks)
                            | .ok db4 =>
                                (.ok { pendingTx with status := "completed" }, db4, locks)

/-- TransactionService.Transfer: parse the identities, validate, then run
the orchestrated callback inside Store.WithTransaction. Validation
failures return before any unit of work is opened, with an empty event
trace. -/
def Transfer (db : DB) (req : TransferRequest) (freshID : Nat) (now : Nat) :
    Except AppError Transaction × DB × List Event :=
  match parseAccountIDs req.sourceAccountID req.destinationAccountID with
  | .error e => (.error e, db, [])
  | .ok ids =>
      match validateTransfer ids.1 ids.2 req.amount with
      | .error e => (.error e, db, [])
      | .ok _ => store.WithTransaction db (transferBody ids.1 ids.2 req freshID now)

end transactionService

/-- Recogniser for lock-acquisition events, used to state lock-ordering
properties about the trace. -/
def Event.isLockAcquire : Event → Bool
  | .lockAcquire _ => true
  | _ => false

/-- All transaction records of a state carry a terminal status. -/
def DB.terminalOnly (db : DB) : Prop :=
  ∀ t ∈ db.transactions, t.status = "completed" ∨ t.status = "failed"

namespace lemmas

open transactionService accountService

lemma parseAccountIDs_error_eq {a b : String} {e : AppError}
    (h : parseAccountIDs a b = .error e) : e = ErrInvalidAccountID := by
  unfold parseAccountIDs at h
  repeat' split at h
  all_goals simp_all

lemma validateTransfer_ok_ne {s d : Int} {a : Rat}
    (h : validateTransfer s d a = .ok ()) : s ≠ d := by
  intro hteq
  rw [validateTransfer, if_pos hteq] at h
  exact absurd h (by simp)

lemma GetAccount_some_id {db : DB} {i : Int} {a : Account}
    (h : accountRepo.GetAccount db i = some a) : a.id = i := by
  have := List.find?_some h
  simpa using this

lemma GetAccount_mem {db : DB} {i : Int} {a : Account}
    (h : accountRepo.GetAccount db i = some a) : a ∈ db.accounts :=
  List.mem_of_find?_eq_some h

lemma GetAccount_any {db : DB} {i : Int} {a : Account}
    (h : accountRepo.GetAccount db i = some a) :
    db.accounts.any (fun x => x.id = i) = true := by
  rw [List.any_eq_true]
  exact ⟨a, GetAccount_mem h, by simp [GetAccount_some_id h]⟩

lemma CreateTransaction_of_lookup_none {db : DB} {t : Transaction} {now : Nat}
    (h : lookupIdempotency db t.idempotencyKey = none) :
    transactionRepo.CreateTransaction db t now =
      .ok { db with
            transactions := db.transactions ++ [{ t with createdAt := now, updatedAt := now }] } := by
  rcases hik : t.idempotencyKey with _ | k
  · simp [transactionRepo.CreateTransaction, hik]
  · rw [hik] at h
    simp only [lookupIdempotency] at h
    have hnone : ∀ u ∈ db.transactions, ¬ (u.idempotencyKey = some k) := by
      intro u hu
      have := List.find?_eq_none.mp h u hu
      simpa using this
    have hany : db.transactions.any (fun u => u.idempotencyKey = some k) = false := by
      rw [Bool.eq_false_iff]
      intro hc
      rcases List.any_eq_true.mp hc with ⟨u, hu, hp⟩
      exact hnone u hu (by simpa using hp)
    simp [transactionRepo.CreateTransaction, hik, hany]

lemma find?_id_eq_none_of_any_false {l : List Account} {i : Int}
    (h : l.any (fun a => a.id = i) = false) :
    l.find? (fun a => a.id = i) = none := by
  refine List.find?_eq_none.mpr fun x hx hc => ?_
  have ht : l.any (fun a => a.id = i) = true :=
    List.any_eq_true.mpr ⟨x, hx, hc⟩
  simp [h] at ht

lemma UpdateAccountBalance_ok {db : DB} {i : Int} {nb : Rat} {now : Nat}
    (h : db.accounts.any (fun a => a.id = i) = true) :
    accountRepo.UpdateAccountBalance db i nb now =
      .ok { db with
            accounts := db.accounts.map (fun a =>
              if a.id = i then { a with balance := nb, updatedAt := now } else a) } := by
  simp [accountRepo.UpdateAccountBalance, h]

lemma any_id_map_update {l : List Account} {i j : Int} {nb : Rat} {now : Nat}
    (h : l.any (fun a => a.id = j) = true) :
    (l.map (fun a =>
        if a.id = i then { a with balance := nb, updatedAt := now } else a)).any
      (fun a => a.id = j) = true := by
  rcases List.any_eq_true.mp h with ⟨x, hx, hpx⟩
  have h1 : x.id = j := by simpa using hpx
  refine List.any_eq_true.mpr
    ⟨if x.id = i then { x with balance := nb, updatedAt := now } else x,
     List.mem_map_of_mem _ hx, ?_⟩
  by_cases hxi : x.id = i
  · simp [hxi]
    omega
  · simpa [hxi] using hpx

lemma find?_id_map_update {l : List Account} {i j : Int} {nb : Rat} {now : Nat} :
    (l.map (fun a =>
        if a.id = i then { a with balance := nb, updatedAt := now } else a)).find?
      (fun a => a.id = j)
      = (l.find? (fun a => a.id = j)).map (fun a =>
          if a.id = i then { a with balance := nb, updatedAt := now } else a) := by
  have hcomp : ((fun a : Account => decide (a.id = j)) ∘ fun a =>
      if a.id = i then { a with balance := nb, updatedAt := now } else a)
      = fun a : Account => decide (a.id = j) := by
    funext a
    by_cases h : a.id = i <;> simp [h]
  rw [List.find?_map, hcomp]

lemma find?_key_map_status {l : List Transaction} {f : Nat} {st : String}
    {now : Nat} {k : Nat} :
    (l.map (fun t =>
        if t.id = f then { t with status := st, updatedAt := now } else t)).find?
      (fun t => t.idempotencyKey = some k)
      = (l.find? (fun t => t.idempotencyKey = some k)).map (fun t =>
          if t.id = f then { t with status := st, updatedAt := now } else t) := by
  have hcomp : ((fun t : Transaction => decide (t.idempotencyKey = some k)) ∘ fun t =>
      if t.id = f then { t with status := st, updatedAt := now } else t)
      = fun t : Transaction => decide (t.idempotencyKey = some k) := by
    funext t
    by_cases h : t.id = f <;> simp [h]
  rw [List.find?_map, hcomp]

lemma withTransaction_error_of_body (db : DB)
    (fn : DB → Except AppError Transaction × DB × List Event) (e : AppError)
    (h : (fn db).1 = .error e) :
    (store.WithTransaction db fn).1 = .error e := by
  unfold store.WithTransaction
  rcases hfn : fn db with ⟨r, db', evs⟩
  rcases r with re | rt
  · simp [hfn] at h ⊢
    exact h
  · simp [hfn] at h

lemma withTransaction_error_state (db : DB)
    (fn : DB → Except AppError Transaction × DB × List Event) (e : AppError)
    (h : (store.WithTransaction db fn).1 = .error e) :
    (store.WithTransaction db fn).2.1 = db := by
  unfold store.WithTransaction at *
  rcases hfn : fn db with ⟨r, db', evs⟩
  rcases r with re | rt <;> simp [hfn] at *

lemma transferBody_replay {db : DB} {req : TransferRequest} {s d : Int} {f n : Nat}
    {t : Transaction}
    (h : lookupIdempotency db req.idempotencyKey = some t) :
    transferBody s d req f n db = (.ok t, db, []) := by
  unfold transferBody
  rw [h]

lemma transferBody_insufficient {db : DB} {req : TransferRequest} {s d : Int}
    {f n : Nat} {A B : Account}
    (hsd : s ≠ d)
    (hk : lookupIdempotency db req.idempotencyKey = none)
    (hs : accountRepo.GetAccount db s = some A)
    (hd : accountRepo.GetAccount db d = some B)
    (hbal : A.balance < req.amount) :
    transferBody s d req f n db =
      (.error ErrInsufficientBalance,
       { db with
         transactions := (db.transactions ++
             [({ id := f, sourceAccountID := s, destinationAccountID := d,
                 amount := req.amount, idempotencyKey := req.idempotencyKey,
                 status := "pending", createdAt := n, updatedAt := n } : Transaction)]).map
             (fun t => if t.id = f then { t with status := "failed", updatedAt := n } else t) },
       [Event.lockAcquire (min s d), Event.lockAcquire (max s d)]) := by
  have hCT := @CreateTransaction_of_lookup_none db
    { id := f, sourceAccountID := s, destinationAccountID := d,
      amount := req.amount, idempotencyKey := req.idempotencyKey,
      status := "pending", createdAt := n, updatedAt := n } n hk
  rcases lt_or_gt_of_ne hsd with hlt | hgt
  · have hmin : min s d = s := min_eq_left hlt.le
    have hmax : max s d = d := max_eq_right hlt.le
    simp [transferBody, hk, lockOrder, hlt, accountRepo.GetAccountForUpdate,
      hs, hd, mapLockedRows, hCT, hbal, transactionRepo.UpdateTransactionStatus,
      hmin, hmax]
  · have hnlt : ¬ s < d := not_lt.mpr hgt.le
    have hds : d ≠ s := Ne.symm hsd
    have hmin : min s d = d := min_eq_right hgt.le
    have hmax : max s d = s := max_eq_left hgt.le
    simp [transferBody, hk, lockOrder, hnlt, accountRepo.GetAccountForUpdate,
      hs, hd, mapLockedRows, hds, hCT, hbal, transactionRepo.UpdateTransactionStatus,
      hmin, hmax]

lemma update_balance_id (a : Account) (i : Int) (nb : Rat) (now : Nat) :
    (if a.id = i then { a with balance := nb, updatedAt := now } else a).id = a.id := by
  by_cases h : a.id = i <;> simp [h]

lemma transferBody_success {db : DB} {req : TransferRequest} {s d : Int}
    {f n : Nat} {A B : Account}
    (hsd : s ≠ d)
    (hk : lookupIdempotency db req.idempotencyKey = none)
    (hs : accountRepo.GetAccount db s = some A)
    (hd : accountRepo.GetAccount db d = some B)
    (hbal : ¬ A.balance < req.amount) :
    transferBody s d req f n db =
      (.ok { id := f, sourceAccountID := s, destinationAccountID := d,
             amount := req.amount, idempotencyKey := req.idempotencyKey,
             status := "completed", createdAt := n, updatedAt := n },
       { accounts := (db.accounts.map (fun a =>
             if a.id = s then { a with balance := A.balance - req.amount, updatedAt := n }
             else a)).map (fun a =>
             if a.id = d then { a with balance := B.balance + req.amount, updatedAt := n }
             else a),
         transactions := (db.transactions ++
             [({ id := f, sourceAccountID := s, destinationAccountID := d,
                 amount := req.amount, idempotencyKey := req.idempotencyKey,
                 status := "pending", createdAt := n, updatedAt := n } : Transaction)]).map
             (fun t => if t.id = f then { t with status := "completed", updatedAt := n } else t) },
       [Event.lockAcquire (min s d), Event.lockAcquire (max s d)]) := by
  have hanys : db.accounts.any (fun a => a.id = s) = true := GetAccount_any hs
  have hanyd : db.accounts.any (fun a => a.id = d) = true := GetAccount_any hd
  have hCT := @CreateTransaction_of_lookup_none db
    { id := f, sourceAccountID := s, destinationAccountID := d,
      amount := req.amount, idempotencyKey := req.idempotencyKey,
      status := "pending", createdAt := n, updatedAt := n } n hk
  have hu1 := @UpdateAccountBalance_ok
    { accounts := db.accounts,
      transactions := db.transactions ++
        [{ id := f, sourceAccountID := s, destinationAccountID := d,
           amount := req.amount, idempotencyKey := req.idempotencyKey,
           status := "pending", createdAt := n, updatedAt := n }] }
    s (A.balance - req.amount) n hanys
  have hu2 := @UpdateAccountBalance_ok
    { accounts := db.accounts.map (fun a =>
        if a.id = s then { a with balance := A.balance - req.amount, updatedAt := n }
        else a),
      transactions := db.transactions ++
        [{ id := f, sourceAccountID := s, destinationAccountID := d,
           amount := req.amount, idempotencyKey := req.idempotencyKey,
           status := "pending", createdAt := n, updatedAt := n }] }
    d (B.balance + req.amount) n (any_id_map_update hanyd)
  rcases lt_or_gt_of_ne hsd with hlt | hgt
  · have hmin : min s d = s := min_eq_left hlt.le
    have hmax : max s d = d := max_eq_right hlt.le
    simp [transferBody, hk, lockOrder, hlt, accountRepo.GetAccountForUpdate,
      hs, hd, mapLockedRows, hCT, hbal, hu1, hu2,
      transactionRepo.UpdateTransactionStatus, hmin, hmax]
  · have hnlt : ¬ s < d := not_lt.mpr hgt.le
    have hds : d ≠ s := Ne.symm hsd
    have hmin : min s d = d := min_eq_right hgt.le
    have hmax : max s d = s := max_eq_left hgt.le
    simp [transferBody, hk, lockOrder, hnlt, accountRepo.GetAccountForUpdate,
      hs, hd, mapLockedRows, hds, hCT, hbal, hu1, hu2,
      transactionRepo.UpdateTransactionStatus, hmin, hmax]

lemma transfer_success {db : DB} {req : TransferRequest} {f n : Nat} {s d : Int}
    {A B : Account}
    (hp : parseAccountIDs req.sourceAccountID req.destinationAccountID = .ok (s, d))
    (hv : validateTransfer s d req.amount = .ok ())
    (hk : lookupIdempotency db req.idempotencyKey = none)
    (hs : accountRepo.GetAccount db s = some A)
    (hd : accountRepo.GetAccount db d = some B)
    (hbal : ¬ A.balance < req.amount) :
    Transfer db req f n =
      (.ok { id := f, sourceAccountID := s, destinationAccountID := d,
             amount := req.amount, idempotencyKey := req.idempotencyKey,
             status := "completed", createdAt := n, updatedAt := n },
       { accounts := (db.accounts.map (fun a =>
             if a.id = s then { a with balance := A.balance - req.amount, updatedAt := n }
             else a)).map (fun a =>
             if a.id = d then { a with balance := B.balance + req.amount, updatedAt := n }
             else a),
         transactions := (db.transactions ++
             [({ id := f, sourceAccountID := s, destinationAccountID := d,
                 amount := req.amount, idempotencyKey := req.idempotencyKey,
                 status := "pending", createdAt := n, updatedAt := n } : Transaction)]).map
             (fun t => if t.id = f then { t with status := "completed", updatedAt := n } else t) },
       [Event.uowBegin, Event.lockAcquire (min s d), Event.lockAcquire (max s d),
        Event.uowCommit]) := by
  have hsd := validateTransfer_ok_ne hv
  have hb := @transferBody_success db req s d f n A B hsd hk hs hd hbal
  simp only [Transfer, hp, hv]
  simp [store.WithTransaction, hb]

lemma transfer_error_state (db : DB) (req : transactionService.TransferRequest)
    (f n : Nat) (e : AppError)
    (h : (transactionService.Transfer db req f n).1 = .error e) :
    (transactionService.Transfer db req f n).2.1 = db := by
  unfold transactionService.Transfer at *
  rcases hp : parseAccountIDs req.sourceAccountID req.destinationAccountID with ep | ids
  · simp only [hp]
  · rcases hv : validateTransfer ids.1 ids.2 req.amount with ev | u
    · simp only [hp, hv]
    · simp only [hp, hv] at h ⊢
      exact withTransaction_error_state db _ e h

end lemmas

/-- C5: any error surfaced before commit aborts the whole unit of work
and leaves the durable state exactly as it was: first for
Store.WithTransaction run with an arbitrary orchestrated callback (any
fault inside the callback that surfaces as an error), then for
TransactionService.Transfer as a whole (account not found, write failure,
status-update failure, insufficient balance — every error outcome). -/
theorem C5_abort_no_partial_effect :
    (∀ (db : DB) (fn : DB → Except AppError Transaction × DB × List Event) (e : AppError),
       (store.WithTransaction db fn).1 = .error e →
       (store.WithTransaction db fn).2.1 = db)
    ∧ (∀ (db : DB) (req : transactionService.TransferRequest) (f n : Nat) (e : AppError),
       (transactionService.Transfer db req f n).1 = .error e →
       (transactionService.Transfer db req f n).2.1 = db) :=
  ⟨lemmas.withTransaction_error_state, lemmas.transfer_error_state⟩

/-- Witness for C5: a transfer that fails inside the unit of work
(source account absent) returns an error and leaves the concrete state
untouched. -/
theorem C5_abort_witness :
    (transactionService.Transfer ⟨[], []⟩ ⟨"1", "2", 5, none⟩ 1 0).1
      = .error ErrAccountNotFound
    ∧ (transactionService.Transfer ⟨[], []⟩ ⟨"1", "2", 5, none⟩ 1 0).2.1 = ⟨[], []⟩ := by
  have h1 : accountService.parseInt64 "1" = some 1 := by decide
  have h2 : accountService.parseInt64 "2" = some 2 := by decide
  have hp : transactionService.parseAccountIDs "1" "2" = .ok (1, 2) := by
    simp [transactionService.parseAccountIDs, h1, h2]
  have hv : transactionService.validateTransfer 1 2 5 = .ok () := by
    norm_num [transactionService.validateTransfer]
  have herr : (transactionService.Transfer ⟨[], []⟩ ⟨"1", "2", 5, none⟩ 1 0).1
      = .error ErrAccountNotFound := by
    simp only [transactionService.Transfer, hp, hv]
    norm_num [store.WithTransaction, transactionService.transferBody,
      transactionService.lookupIdempotency, transactionService.lockOrder,
      accountRepo.GetAccountForUpdate, accountRepo.GetAccount, List.find?]
  exact ⟨herr, C5_abort_no_partial_effect.2 ⟨[], []⟩ ⟨"1", "2", 5, none⟩ 1 0
    ErrAccountNotFound herr⟩

/-- C1 (divergence): with source balance 10 and transfer amount 100,
Transfer signals ErrInsufficientBalance and leaves both balances
unchanged — but the error return propagates through
Store.WithTransaction, which rolls the unit of work back, so the
pending→failed journal row does not survive: the final state's
transactions table is empty, not a durable failed record as the claim
and spec require. -/
theorem C1_insufficient_balance_rollback :
    transactionService.Transfer ⟨[⟨1, 10, 0, 0⟩, ⟨2, 5, 0, 0⟩], []⟩
        ⟨"1", "2", 100, some 7⟩ 42 9
      = (.error ErrInsufficientBalance, ⟨[⟨1, 10, 0, 0⟩, ⟨2, 5, 0, 0⟩], []⟩,
         [.uowBegin, .lockAcquire 1, .lockAcquire 2, .uowRollback])
    ∧ (transactionService.Transfer ⟨[⟨1, 10, 0, 0⟩, ⟨2, 5, 0, 0⟩], []⟩
        ⟨"1", "2", 100, some 7⟩ 42 9).2.1.transactions = [] := by
  have h1 : accountService.parseInt64 "1" = some 1 := by decide
  have h2 : accountService.parseInt64 "2" = some 2 := by decide
  have hp : transactionService.parseAccountIDs "1" "2" = .ok (1, 2) := by
    simp [transactionService.parseAccountIDs, h1, h2]
  have hv : transactionService.validateTransfer 1 2 100 = .ok () := by
    norm_num [transactionService.validateTransfer]
  have hmain : transactionService.Transfer ⟨[⟨1, 10, 0, 0⟩, ⟨2, 5, 0, 0⟩], []⟩
      ⟨"1", "2", 100, some 7⟩ 42 9
      = (.error ErrInsufficientBalance, ⟨[⟨1, 10, 0, 0⟩, ⟨2, 5, 0, 0⟩], []⟩,
         [.uowBegin, .lockAcquire 1, .lockAcquire 2, .uowRollback]) := by
    simp only [transactionService.Transfer, hp, hv]
    norm_num [store.WithTransaction, transactionService.transferBody,
      transactionService.lookupIdempotency, transactionService.lockOrder,
      transactionService.mapLockedRows, accountRepo.GetAccountForUpdate,
      accountRepo.GetAccount, accountRepo.UpdateAccountBalance,
      transactionRepo.CreateTransaction, transactionRepo.UpdateTransactionStatus,
      transactionRepo.GetTransactionByIDempotencyKey, List.find?]
  exact ⟨hmain, by rw [hmain]⟩

/-- C6: input validation happens before any unit of work is opened or any
lock is taken and leaves the state unchanged (empty event trace, same DB):
an ill-formed identity string (not a well-formed positive int64) gives
ErrInvalidAccountID; equal parsed identities give ErrSameAccountTransfer
for any amount; for distinct well-formed identities, an amount that is
non-positive, above 1,000,000,000 or below 0.01 gives an invalid_amount
error. -/
theorem C6_validation_before_uow :
    (∀ (db : DB) (req : transactionService.TransferRequest) (f n : Nat) (e : AppError),
       transactionService.parseAccountIDs req.sourceAccountID req.destinationAccountID
         = .error e →
       transactionService.Transfer db req f n = (.error ErrInvalidAccountID, db, []))
    ∧ (∀ (db : DB) (req : transactionService.TransferRequest) (f n : Nat) (s d : Int),
       transactionService.parseAccountIDs req.sourceAccountID req.destinationAccountID
         = .ok (s, d) →
       s = d →
       transactionService.Transfer db req f n = (.error ErrSameAccountTransfer, db, []))
    ∧ (∀ (db : DB) (req : transactionService.TransferRequest) (f n : Nat) (s d : Int),
       transactionService.parseAccountIDs req.sourceAccountID req.destinationAccountID
         = .ok (s, d) →
       s ≠ d →
       (req.amount ≤ 0 ∨ 1000000000 < req.amount ∨ req.amount < 1 / 100) →
       ∃ msg, transactionService.Transfer db req f n =
         (.error ⟨.invalidAmount, msg⟩, db, [])) := by
  refine ⟨?_, ?_, ?_⟩
  · intro db req f n e hperr
    have he := lemmas.parseAccountIDs_error_eq hperr
    subst he
    simp [transactionService.Transfer, hperr]
  · intro db req f n s d hp hsd
    subst hsd
    simp [transactionService.Transfer, hp, transactionService.validateTransfer]
  · intro db req f n s d hp hsd hbad
    by_cases h0 : req.amount < 0 ∨ req.amount = 0
    · exact ⟨"amount must be positive",
        by simp [transactionService.Transfer, hp, transactionService.validateTransfer,
                 hsd, h0]⟩
    · have hpos : 0 < req.amount := by
        rcases lt_trichotomy req.amount 0 with h | h | h
        · exact absurd (Or.inl h) h0
        · exact absurd (Or.inr h) h0
        · exact h
      have hne0 : ¬ req.amount ≤ 0 := not_le.mpr hpos
      by_cases hmax : 1000000000 < req.amount
      · exact ⟨"amount exceeds maximum limit",
          by simp [transactionService.Transfer, hp, transactionService.validateTransfer,
                   hsd, h0, hmax]⟩
      · have hmin : req.amount < 1 / 100 := by
          rcases hbad with h | h | h
          · exact absurd h hne0
          · exact absurd h hmax
          · exact h
        have hmin' : req.amount < (100 : Rat)⁻¹ := by rwa [one_div] at hmin
        exact ⟨"amount below minimum limit",
          by simp [transactionService.Transfer, hp, transactionService.validateTransfer,
                   hsd, h0, hmax, hmin']⟩

/-- Witness for C6: the three validation outcomes at concrete inputs, with
no state change and an empty trace in each case. -/
theorem C6_validation_witness :
    transactionService.Transfer ⟨[], []⟩ ⟨"abc", "2", 5, none⟩ 1 0
      = (.error ErrInvalidAccountID, ⟨[], []⟩, [])
    ∧ transactionService.Transfer ⟨[], []⟩ ⟨"7", "7", 5, none⟩ 1 0
      = (.error ErrSameAccountTransfer, ⟨[], []⟩, [])
    ∧ ∃ msg, transactionService.Transfer ⟨[], []⟩ ⟨"1", "2", 0, none⟩ 1 0
      = (.error ⟨.invalidAmount, msg⟩, ⟨[], []⟩, []) := by
  have habc : accountService.parseInt64 "abc" = none := by decide
  have h7 : accountService.parseInt64 "7" = some 7 := by decide
  have h1 : accountService.parseInt64 "1" = some 1 := by decide
  have h2 : accountService.parseInt64 "2" = some 2 := by decide
  refine ⟨?_, ?_, ?_⟩
  · exact C6_validation_before_uow.1 _ _ 1 0 ErrInvalidAccountID
      (by simp [transactionService.parseAccountIDs, habc])
  · exact C6_validation_before_uow.2.1 _ _ 1 0 7 7
      (by simp [transactionService.parseAccountIDs, h7]) rfl
  · exact C6_validation_before_uow.2.2 _ _ 1 0 1 2
      (by norm_num [transactionService.parseAccountIDs, h1, h2])
      (by norm_num) (by norm_num)

/-- C7: CreateAccount rejects a negative or above-ceiling
(10,000,000,000) initial balance with an invalid_amount error, rejects a
non-positive identity with the invalid-identity error (the code's
invalid_input error "account ID must be positive"), and on success
returns an account with exactly the given identity and balance; reading
that identity immediately afterwards returns the same identity and
balance. -/
theorem C7_create_account :
    (∀ (db : DB) (id : Int) (b : Rat) (now : Nat),
       (b < 0 ∨ 10000000000 < b) →
       ∃ e, accountService.CreateAccount db id b now = (.error e, db)
         ∧ e.code = .invalidAmount)
    ∧ (∀ (db : DB) (id : Int) (b : Rat) (now : Nat),
       0 ≤ b → b ≤ 10000000000 → id ≤ 0 →
       accountService.CreateAccount db id b now
         = (.error ⟨.invalidInput, "account ID must be positive"⟩, db))
    ∧ (∀ (db : DB) (id : Int) (b : Rat) (now : Nat),
       0 ≤ b → b ≤ 10000000000 → 0 < id →
       db.accounts.any (fun a => a.id = id) = false →
       ∃ db', accountService.CreateAccount db id b now = (.ok ⟨id, b, 0, 0⟩, db')
         ∧ accountRepo.GetAccount db' id = some ⟨id, b, now, now⟩) := by
  refine ⟨?_, ?_, ?_⟩
  · intro db id b now hbad
    rcases hbad with hneg | hbig
    · exact ⟨ErrInvalidAmount, by simp [accountService.CreateAccount, hneg], rfl⟩
    · have hnn : ¬ b < 0 := not_lt.mpr (le_of_lt (lt_of_le_of_lt (by norm_num) hbig))
      exact ⟨⟨.invalidAmount, "initial balance exceeds maximum limit"⟩,
        by simp [accountService.CreateAccount, hnn, hbig], rfl⟩
  · intro db id b now hb0 hbc hid
    have hnn : ¬ b < 0 := not_lt.mpr hb0
    have hnb : ¬ 10000000000 < b := not_lt.mpr hbc
    simp [accountService.CreateAccount, hnn, hnb, hid]
  · intro db id b now hb0 hbc hid hfree
    have hnn : ¬ b < 0 := not_lt.mpr hb0
    have hnb : ¬ 10000000000 < b := not_lt.mpr hbc
    have hnid : ¬ id ≤ 0 := not_le.mpr hid
    refine ⟨{ db with accounts := db.accounts ++
        [{ id := id, balance := b, createdAt := now, updatedAt := now }] }, ?_, ?_⟩
    · simp [accountService.CreateAccount, hnn, hnb, hnid,
            accountRepo.CreateAccount, hfree]
    · simp only [accountRepo.GetAccount, List.find?_append,
        lemmas.find?_id_eq_none_of_any_false hfree]
      simp

/-- Witness for C7: the three CreateAccount outcomes at concrete inputs. -/
theorem C7_create_account_witness :
    (∃ e, accountService.CreateAccount ⟨[], []⟩ 5 (-1) 3 = (.error e, ⟨[], []⟩)
      ∧ e.code = .invalidAmount)
    ∧ accountService.CreateAccount ⟨[], []⟩ 0 4 3
      = (.error ⟨.invalidInput, "account ID must be positive"⟩, ⟨[], []⟩)
    ∧ ∃ db', accountService.CreateAccount ⟨[], []⟩ 5 4 3 = (.ok ⟨5, 4, 0, 0⟩, db')
      ∧ accountRepo.GetAccount db' 5 = some ⟨5, 4, 3, 3⟩ :=
  ⟨C7_create_account.1 ⟨[], []⟩ 5 (-1) 3 (Or.inl (by norm_num)),
   C7_create_account.2.1 ⟨[], []⟩ 0 4 3 (by norm_num) (by norm_num) (by norm_num),
   C7_create_account.2.2 ⟨[], []⟩ 5 4 3 (by norm_num) (by norm_num) (by norm_num) rfl⟩

/-- C8: creating an account whose identity already exists fails with
ErrDuplicateAccount and leaves the whole state — in particular the
existing account's balance and every other field — unchanged (stated for
an otherwise valid creation request, i.e. one that reaches the storage
uniqueness check). -/
theorem C8_duplicate_account (db : DB) (id : Int) (b : Rat) (now : Nat) (a : Account)
    (ha : a ∈ db.accounts) (hid : a.id = id)
    (hb0 : 0 ≤ b) (hbc : b ≤ 10000000000) (hpos : 0 < id) :
    accountService.CreateAccount db id b now = (.error ErrDuplicateAccount, db) := by
  have hnn : ¬ b < 0 := not_lt.mpr hb0
  have hnb : ¬ 10000000000 < b := not_lt.mpr hbc
  have hnid : ¬ id ≤ 0 := not_le.mpr hpos
  have hany : db.accounts.any (fun x => x.id = id) = true :=
    List.any_eq_true.mpr ⟨a, ha, by simp [hid]⟩
  simp [accountService.CreateAccount, hnn, hnb, hnid,
        accountRepo.CreateAccount, hany]

/-- Witness for C8: duplicate creation against a concrete one-account
state fails with ErrDuplicateAccount and changes nothing. -/
theorem C8_duplicate_account_witness :
    accountService.CreateAccount ⟨[⟨5, 7, 1, 1⟩], []⟩ 5 4 9
      = (.error ErrDuplicateAccount, ⟨[⟨5, 7, 1, 1⟩], []⟩) :=
  C8_duplicate_account ⟨[⟨5, 7, 1, 1⟩], []⟩ 5 4 9 ⟨5, 7, 1, 1⟩ (by simp) rfl
    (by norm_num) (by norm_num) (by norm_num)

/-- C2: for every successful (non-replayed) transfer of amount a from
source s (balance x) to destination d (balance y), the post-state has
source balance x - a and destination balance y + a, computed by exact
rational (decimal) subtraction and addition, their sum is unchanged, and
the returned transaction has status completed. -/
theorem C2_successful_transfer_balances
    (db : DB) (req : transactionService.TransferRequest) (f n : Nat) (s d : Int)
    (A B : Account) (t : Transaction) (db' : DB) (evs : List Event)
    (hp : transactionService.parseAccountIDs req.sourceAccountID req.destinationAccountID
      = .ok (s, d))
    (hk : transactionService.lookupIdempotency db req.idempotencyKey = none)
    (hs : accountRepo.GetAccount db s = some A)
    (hd : accountRepo.GetAccount db d = some B)
    (hok : transactionService.Transfer db req f n = (.ok t, db', evs)) :
    t.status = "completed"
    ∧ (∃ S, accountRepo.GetAccount db' s = some S ∧ S.balance = A.balance - req.amount)
    ∧ (∃ D, accountRepo.GetAccount db' d = some D ∧ D.balance = B.balance + req.amount)
    ∧ A.balance - req.amount + (B.balance + req.amount) = A.balance + B.balance := by
  rcases hv : transactionService.validateTransfer s d req.amount with ev | u
  · rw [transactionService.Transfer, hp] at hok
    simp only [hv] at hok
    exact absurd hok (by simp)
  · cases u
    have hsd := lemmas.validateTransfer_ok_ne hv
    have hAid := lemmas.GetAccount_some_id hs
    have hBid := lemmas.GetAccount_some_id hd
    by_cases hbal : A.balance < req.amount
    · have hb := @lemmas.transferBody_insufficient db req s d f n A B hsd hk hs hd hbal
      have herr : (transactionService.Transfer db req f n).1 = .error ErrInsufficientBalance := by
        rw [transactionService.Transfer, hp]
        simp only [hv]
        exact lemmas.withTransaction_error_of_body _ _ _ (by rw [hb])
      rw [hok] at herr
      exact absurd herr (by simp)
    · have hsucc := @lemmas.transfer_success db req f n s d A B hp hv hk hs hd hbal
      rw [hok] at hsucc
      obtain ⟨ht, hdb, hev⟩ : t = _ ∧ db' = _ ∧ evs = _ := by
        simpa [Prod.ext_iff] using hsucc
      subst ht
      subst hdb
      have hs' : db.accounts.find? (fun a => a.id = s) = some A := hs
      have hd' : db.accounts.find? (fun a => a.id = d) = some B := hd
      refine ⟨rfl, ?_, ?_, by ring⟩
      · refine ⟨{ A with balance := A.balance - req.amount, updatedAt := n }, ?_, by simp⟩
        simp only [accountRepo.GetAccount]
        rw [← List.map_map, lemmas.find?_id_map_update, lemmas.find?_id_map_update, hs']
        simp [hAid, hsd]
      · refine ⟨{ B with balance := B.balance + req.amount, updatedAt := n }, ?_, by simp⟩
        simp only [accountRepo.GetAccount]
        rw [← List.map_map, lemmas.find?_id_map_update, lemmas.find?_id_map_update, hd']
        simp [hBid, Ne.symm hsd]

/-- Witness for C2: the concrete transfer of 3 from account 1 (balance
10) to account 2 (balance 5) succeeds with post-balances 10 - 3 and
5 + 3 and an unchanged sum. -/
theorem C2_successful_transfer_witness :
    ({ id := 42, sourceAccountID := 1, destinationAccountID := 2, amount := 3,
       idempotencyKey := none, status := "completed", createdAt := 9,
       updatedAt := 9 } : Transaction).status = "completed"
    ∧ (∃ S, accountRepo.GetAccount
        ⟨[⟨1, 7, 0, 9⟩, ⟨2, 8, 0, 9⟩], [⟨42, 1, 2, 3, none, "completed", 9, 9⟩]⟩ 1
          = some S ∧ S.balance = (10 : Rat) - 3)
    ∧ (∃ D, accountRepo.GetAccount
        ⟨[⟨1, 7, 0, 9⟩, ⟨2, 8, 0, 9⟩], [⟨42, 1, 2, 3, none, "completed", 9, 9⟩]⟩ 2
          = some D ∧ D.balance = (5 : Rat) + 3)
    ∧ (10 : Rat) - 3 + (5 + 3) = 10 + 5 := by
  have h1 : accountService.parseInt64 "1" = some 1 := by decide
  have h2 : accountService.parseInt64 "2" = some 2 := by decide
  have hp : transactionService.parseAccountIDs "1" "2" = .ok (1, 2) := by
    simp [transactionService.parseAccountIDs, h1, h2]
  have hv : transactionService.validateTransfer 1 2 3 = .ok () := by
    norm_num [transactionService.validateTransfer]
  have hok : transactionService.Transfer ⟨[⟨1, 10, 0, 0⟩, ⟨2, 5, 0, 0⟩], []⟩
      ⟨"1", "2", 3, none⟩ 42 9
      = (.ok ⟨42, 1, 2, 3, none, "completed", 9, 9⟩,
         ⟨[⟨1, 7, 0, 9⟩, ⟨2, 8, 0, 9⟩], [⟨42, 1, 2, 3, none, "completed", 9, 9⟩]⟩,
         [.uowBegin, .lockAcquire 1, .lockAcquire 2, .uowCommit]) := by
    simp only [transactionService.Transfer, hp, hv]
    norm_num [store.WithTransaction, transactionService.transferBody,
      transactionService.lookupIdempotency, transactionService.lockOrder,
      transactionService.mapLockedRows, accountRepo.GetAccountForUpdate,
      accountRepo.GetAccount, accountRepo.UpdateAccountBalance,
      transactionRepo.CreateTransaction, transactionRepo.UpdateTransactionStatus,
      transactionRepo.GetTransactionByIDempotencyKey, List.find?]
  exact C2_successful_transfer_balances ⟨[⟨1, 10, 0, 0⟩, ⟨2, 5, 0, 0⟩], []⟩
    ⟨"1", "2", 3, none⟩ 42 9 1 2 ⟨1, 10, 0, 0⟩ ⟨2, 5, 0, 0⟩
    ⟨42, 1, 2, 3, none, "completed", 9, 9⟩
    ⟨[⟨1, 7, 0, 9⟩, ⟨2, 8, 0, 9⟩], [⟨42, 1, 2, 3, none, "completed", 9, 9⟩]⟩
    [.uowBegin, .lockAcquire 1, .lockAcquire 2, .uowCommit]
    hp rfl rfl (by simp [accountRepo.GetAccount, List.find?]) hok

/-- C4: when a transfer between distinct valid accounts reaches the
locking step (no idempotency short-circuit), the locked reads recorded in
the trace are exactly read_for_update on min(source, destination) first
and max(source, destination) second, by raw numeric comparison of the
identities and regardless of transfer direction, and the locked rows are
mapped back to logical source and destination by identity comparison. -/
theorem C4_canonical_lock_order
    (db : DB) (req : transactionService.TransferRequest) (f n : Nat) (s d : Int)
    (fa sa : Account)
    (hp : transactionService.parseAccountIDs req.sourceAccountID req.destinationAccountID
      = .ok (s, d))
    (hv : transactionService.validateTransfer s d req.amount = .ok ())
    (hk : transactionService.lookupIdempotency db req.idempotencyKey = none)
    (hfa : accountRepo.GetAccount db (min s d) = some fa)
    (hsa : accountRepo.GetAccount db (max s d) = some sa) :
    (transactionService.Transfer db req f n).2.2.filter Event.isLockAcquire
      = [Event.lockAcquire (min s d), Event.lockAcquire (max s d)]
    ∧ (transactionService.mapLockedRows (min s d) s fa sa).1.id = s
    ∧ (transactionService.mapLockedRows (min s d) s fa sa).2.id = d := by
  have hsd := lemmas.validateTransfer_ok_ne hv
  have hfid := lemmas.GetAccount_some_id hfa
  have hsid := lemmas.GetAccount_some_id hsa
  rcases lt_or_gt_of_ne hsd with hlt | hgt
  · have hmin : min s d = s := min_eq_left hlt.le
    have hmax : max s d = d := max_eq_right hlt.le
    rw [hmin] at hfa
    rw [hmax] at hsa
    refine ⟨?_, ?_, ?_⟩
    · by_cases hbal : fa.balance < req.amount
      · have hb := @lemmas.transferBody_insufficient db req s d f n fa sa hsd hk hfa hsa hbal
        simp only [transactionService.Transfer, hp, hv]
        simp [store.WithTransaction, hb, Event.isLockAcquire, hmin, hmax]
      · have hb := @lemmas.transferBody_success db req s d f n fa sa hsd hk hfa hsa hbal
        simp only [transactionService.Transfer, hp, hv]
        simp [store.WithTransaction, hb, Event.isLockAcquire, hmin, hmax]
    · rw [hmin] at hfid ⊢
      simp [transactionService.mapLockedRows, hfid]
    · rw [hmin]
      rw [hmax] at hsid
      simp [transactionService.mapLockedRows, hsid]
  · have hmin : min s d = d := min_eq_right hgt.le
    have hmax : max s d = s := max_eq_left hgt.le
    rw [hmin] at hfa
    rw [hmax] at hsa
    refine ⟨?_, ?_, ?_⟩
    · by_cases hbal : sa.balance < req.amount
      · have hb := @lemmas.transferBody_insufficient db req s d f n sa fa hsd hk hsa hfa hbal
        simp only [transactionService.Transfer, hp, hv]
        simp [store.WithTransaction, hb, Event.isLockAcquire, hmin, hmax]
      · have hb := @lemmas.transferBody_success db req s d f n sa fa hsd hk hsa hfa hbal
        simp only [transactionService.Transfer, hp, hv]
        simp [store.WithTransaction, hb, Event.isLockAcquire, hmin, hmax]
    · rw [hmin] at hfid ⊢
      rw [hmax] at hsid
      have hds : d ≠ s := Ne.symm hsd
      simp [transactionService.mapLockedRows, hds, hsid]
    · rw [hmin] at hfid ⊢
      have hds : d ≠ s := Ne.symm hsd
      simp [transactionService.mapLockedRows, hds, hfid]

/-- Witness for C4: a transfer in the "reversed" direction (source 5,
destination 2) still locks account 2 first and account 5 second, and the
locked rows map back to source 5 and destination 2. -/
theorem C4_canonical_lock_order_witness :
    (transactionService.Transfer ⟨[⟨2, 5, 0, 0⟩, ⟨5, 10, 0, 0⟩], []⟩
        ⟨"5", "2", 3, none⟩ 42 9).2.2.filter Event.isLockAcquire
      = [Event.lockAcquire (min 5 2), Event.lockAcquire (max 5 2)]
    ∧ (transactionService.mapLockedRows (min 5 2) 5 ⟨2, 5, 0, 0⟩ ⟨5, 10, 0, 0⟩).1.id = 5
    ∧ (transactionService.mapLockedRows (min 5 2) 5 ⟨2, 5, 0, 0⟩ ⟨5, 10, 0, 0⟩).2.id = 2 := by
  have h5 : accountService.parseInt64 "5" = some 5 := by decide
  have h2 : accountService.parseInt64 "2" = some 2 := by decide
  have hp : transactionService.parseAccountIDs "5" "2" = .ok (5, 2) := by
    simp [transactionService.parseAccountIDs, h5, h2]
  have hv : transactionService.validateTransfer 5 2 3 = .ok () := by
    norm_num [transactionService.validateTransfer]
  have hm : min (5 : Int) 2 = 2 := min_eq_right (by norm_num)
  have hx : max (5 : Int) 2 = 5 := max_eq_left (by norm_num)
  have hfa : accountRepo.GetAccount ⟨[⟨2, 5, 0, 0⟩, ⟨5, 10, 0, 0⟩], []⟩ (min 5 2)
      = some ⟨2, 5, 0, 0⟩ := by
    rw [hm]
    rfl
  have hsa : accountRepo.GetAccount ⟨[⟨2, 5, 0, 0⟩, ⟨5, 10, 0, 0⟩], []⟩ (max 5 2)
      = some ⟨5, 10, 0, 0⟩ := by
    rw [hx]
    simp [accountRepo.GetAccount, List.find?]
  exact C4_canonical_lock_order ⟨[⟨2, 5, 0, 0⟩, ⟨5, 10, 0, 0⟩], []⟩
    ⟨"5", "2", 3, none⟩ 42 9 5 2 ⟨2, 5, 0, 0⟩ ⟨5, 10, 0, 0⟩ hp hv rfl hfa hsa

lemma transfer_replay_of_found
    (db : DB) (req : transactionService.TransferRequest) (f n : Nat) (s d : Int)
    (k : Nat) (t : Transaction)
    (hp : transactionService.parseAccountIDs req.sourceAccountID req.destinationAccountID
      = .ok (s, d))
    (hv : transactionService.validateTransfer s d req.amount = .ok ())
    (hkk : req.idempotencyKey = some k)
    (ht : transactionRepo.GetTransactionByIDempotencyKey db k = some t) :
    transactionService.Transfer db req f n
      = (.ok t, db, [Event.uowBegin, Event.uowCommit]) := by
  have hl : transactionService.lookupIdempotency db req.idempotencyKey = some t := by
    rw [hkk]
    simp [transactionService.lookupIdempotency, ht]
  have hb := @lemmas.transferBody_replay db req s d f n t hl
  simp only [transactionService.Transfer, hp, hv]
  simp [store.WithTransaction, hb]

/-- C10: the idempotency lookup matches on the key alone: when the
request passes input validation and a transaction with the request's key
exists in the journal, that stored transaction is returned as-is and the
state is unchanged — with no constraint whatsoever relating the stored
transaction's source, destination or amount to the request's. -/
theorem C10_idempotency_key_only
    (db : DB) (req : transactionService.TransferRequest) (f n : Nat) (s d : Int)
    (k : Nat) (t : Transaction)
    (hp : transactionService.parseAccountIDs req.sourceAccountID req.destinationAccountID
      = .ok (s, d))
    (hv : transactionService.validateTransfer s d req.amount = .ok ())
    (hkk : req.idempotencyKey = some k)
    (ht : transactionRepo.GetTransactionByIDempotencyKey db k = some t) :
    (transactionService.Transfer db req f n).1 = .ok t
    ∧ (transactionService.Transfer db req f n).2.1 = db := by
  rw [transfer_replay_of_found db req f n s d k t hp hv hkk ht]
  exact ⟨rfl, rfl⟩

/-- Witness for C10: the stored transaction under key 7 has source 3,
destination 4 and amount 999; a validated request with key 7 but source
1, destination 2, amount 50 still gets the stored transaction back, with
no state change. -/
theorem C10_idempotency_key_only_witness :
    (transactionService.Transfer
        ⟨[⟨1, 10, 0, 0⟩, ⟨2, 5, 0, 0⟩], [⟨77, 3, 4, 999, some 7, "completed", 1, 1⟩]⟩
        ⟨"1", "2", 50, some 7⟩ 42 9).1
      = .ok ⟨77, 3, 4, 999, some 7, "completed", 1, 1⟩
    ∧ (transactionService.Transfer
        ⟨[⟨1, 10, 0, 0⟩, ⟨2, 5, 0, 0⟩], [⟨77, 3, 4, 999, some 7, "completed", 1, 1⟩]⟩
        ⟨"1", "2", 50, some 7⟩ 42 9).2.1
      = ⟨[⟨1, 10, 0, 0⟩, ⟨2, 5, 0, 0⟩], [⟨77, 3, 4, 999, some 7, "completed", 1, 1⟩]⟩ := by
  have h1 : accountService.parseInt64 "1" = some 1 := by decide
  have h2 : accountService.parseInt64 "2" = some 2 := by decide
  have hp : transactionService.parseAccountIDs "1" "2" = .ok (1, 2) := by
    simp [transactionService.parseAccountIDs, h1, h2]
  have hv : transactionService.validateTransfer 1 2 50 = .ok () := by
    norm_num [transactionService.validateTransfer]
  exact C10_idempotency_key_only
    ⟨[⟨1, 10, 0, 0⟩, ⟨2, 5, 0, 0⟩], [⟨77, 3, 4, 999, some 7, "completed", 1, 1⟩]⟩
    ⟨"1", "2", 50, some 7⟩ 42 9 1 2 7 ⟨77, 3, 4, 999, some 7, "completed", 1, 1⟩
    hp hv rfl rfl

/-- C3: the idempotency key is looked up inside the unit of work; if a
transaction with the supplied key exists it is returned unchanged with no
balance mutation (a no-op commit); consequently, running the same
validated transfer twice sequentially (first run successful) mutates the
balances exactly once: the second run returns the identical transaction
record — same identity, same terminal status — and leaves the state of
the first run untouched. -/
theorem C3_idempotent_replay :
    (∀ (db : DB) (req : transactionService.TransferRequest) (f n : Nat)
       (s d : Int) (k : Nat) (t : Transaction),
       transactionService.parseAccountIDs req.sourceAccountID req.destinationAccountID
         = .ok (s, d) →
       transactionService.validateTransfer s d req.amount = .ok () →
       req.idempotencyKey = some k →
       transactionRepo.GetTransactionByIDempotencyKey db k = some t →
       transactionService.Transfer db req f n
         = (.ok t, db, [Event.uowBegin, Event.uowCommit]))
    ∧ (∀ (db : DB) (req : transactionService.TransferRequest) (f n f2 n2 : Nat)
       (s d : Int) (k : Nat) (A B : Account),
       transactionService.parseAccountIDs req.sourceAccountID req.destinationAccountID
         = .ok (s, d) →
       transactionService.validateTransfer s d req.amount = .ok () →
       req.idempotencyKey = some k →
       transactionService.lookupIdempotency db req.idempotencyKey = none →
       accountRepo.GetAccount db s = some A →
       accountRepo.GetAccount db d = some B →
       ¬ A.balance < req.amount →
       ∃ t1 db1,
         transactionService.Transfer db req f n
           = (.ok t1, db1, [Event.uowBegin, Event.lockAcquire (min s d),
                            Event.lockAcquire (max s d), Event.uowCommit])
         ∧ t1.status = "completed"
         ∧ transactionService.Transfer db1 req f2 n2
           = (.ok t1, db1, [Event.uowBegin, Event.uowCommit])) := by
  refine ⟨?_, ?_⟩
  · intro db req f n s d k t hp hv hkk ht
    exact transfer_replay_of_found db req f n s d k t hp hv hkk ht
  · intro db req f n f2 n2 s d k A B hp hv hkk hk hs hd hbal
    have hknone : db.transactions.find? (fun u => u.idempotencyKey = some k) = none := by
      have h0 := hk
      rw [hkk] at h0
      simpa [transactionService.lookupIdempotency,
        transactionRepo.GetTransactionByIDempotencyKey] using h0
    refine ⟨_, _, @lemmas.transfer_success db req f n s d A B hp hv hk hs hd hbal,
      rfl, ?_⟩
    apply transfer_replay_of_found _ req f2 n2 s d k _ hp hv hkk
    simp only [transactionRepo.GetTransactionByIDempotencyKey]
    rw [lemmas.find?_key_map_status, List.find?_append, hknone]
    simp [hkk]

/-- Witness for C3: a concrete keyed transfer run twice sequentially; the
first run commits one balance mutation, the second replays the identical
completed transaction with a no-op commit. -/
theorem C3_idempotent_replay_witness :
    ∃ t1 db1,
      transactionService.Transfer ⟨[⟨1, 10, 0, 0⟩, ⟨2, 5, 0, 0⟩], []⟩
          ⟨"1", "2", 3, some 7⟩ 42 9
        = (.ok t1, db1, [Event.uowBegin, Event.lockAcquire (min 1 2),
                         Event.lockAcquire (max 1 2), Event.uowCommit])
      ∧ t1.status = "completed"
      ∧ transactionService.Transfer db1 ⟨"1", "2", 3, some 7⟩ 43 11
        = (.ok t1, db1, [Event.uowBegin, Event.uowCommit]) := by
  have h1 : accountService.parseInt64 "1" = some 1 := by decide
  have h2 : accountService.parseInt64 "2" = some 2 := by decide
  have hp : transactionService.parseAccountIDs "1" "2" = .ok (1, 2) := by
    simp [transactionService.parseAccountIDs, h1, h2]
  have hv : transactionService.validateTransfer 1 2 3 = .ok () := by
    norm_num [transactionService.validateTransfer]
  exact C3_idempotent_replay.2 ⟨[⟨1, 10, 0, 0⟩, ⟨2, 5, 0, 0⟩], []⟩
    ⟨"1", "2", 3, some 7⟩ 42 9 43 11 1 2 7 ⟨1, 10, 0, 0⟩ ⟨2, 5, 0, 0⟩
    hp hv rfl rfl rfl (by simp [accountRepo.GetAccount, List.find?]) (by norm_num)

lemma CreateTransaction_ok_parts {db : DB} {t : Transaction} {now : Nat} {db' : DB}
    (h : transactionRepo.CreateTransaction db t now = .ok db') :
    db'.transactions = db.transactions ++ [{ t with createdAt := now, updatedAt := now }] := by
  unfold transactionRepo.CreateTransaction at h
  split at h
  · split at h
    · exact absurd h (by simp)
    · injection h with h2
      subst h2
      rfl
  · injection h with h2
    subst h2
    rfl

lemma UpdateAccountBalance_ok_transactions {db : DB} {i : Int} {nb : Rat}
    {now : Nat} {db' : DB}
    (h : accountRepo.UpdateAccountBalance db i nb now = .ok db') :
    db'.transactions = db.transactions := by
  unfold accountRepo.UpdateAccountBalance at h
  split at h
  · injection h with h2
    subst h2
    rfl
  · exact absurd h (by simp)

lemma UpdateTransactionStatus_ok_transactions {db : DB} {i : Nat} {st : String}
    {now : Nat} {db' : DB}
    (h : transactionRepo.UpdateTransactionStatus db i st now = .ok db') :
    db'.transactions = db.transactions.map (fun t =>
      if t.id = i then { t with status := st, updatedAt := now } else t) := by
  unfold transactionRepo.UpdateTransactionStatus at h
  injection h with h2
  subst h2
  rfl

lemma transferBody_ok_terminal {db : DB} {req : transactionService.TransferRequest}
    {s d : Int} {f n : Nat} {t : Transaction} {db' : DB} {evs : List Event}
    (hterm : db.terminalOnly)
    (hb : transactionService.transferBody s d req f n db = (.ok t, db', evs)) :
    db'.terminalOnly := by
  unfold transactionService.transferBody at hb
  dsimp only [] at hb
  split at hb
  · simp only [Prod.mk.injEq] at hb
    obtain ⟨-, hdb, -⟩ := hb
    subst hdb
    exact hterm
  · split at hb
    · simp at hb
    · split at hb
      · simp at hb
      · split at hb
        · simp at hb
        · rename_i db1 heq1
          split at hb
          · split at hb
            · simp at hb
            · simp at hb
          · split at hb
            · simp at hb
            · rename_i db2 heq2
              split at hb
              · simp at hb
              · rename_i db3 heq3
                split at hb
                · simp at hb
                · rename_i db4 heq4
                  simp only [Prod.mk.injEq] at hb
                  obtain ⟨-, hdb, -⟩ := hb
                  subst hdb
                  have h1 := CreateTransaction_ok_parts heq1
                  have h2 := UpdateAccountBalance_ok_transactions heq2
                  have h3 := UpdateAccountBalance_ok_transactions heq3
                  have h4 := UpdateTransactionStatus_ok_transactions heq4
                  intro u hu
                  rw [h4, h3, h2, h1] at hu
                  rcases List.mem_map.mp hu with ⟨v, hv, rfl⟩
                  rcases List.mem_append.mp hv with hvl | hvr
                  · by_cases hvid : v.id = f
                    · simp [hvid]
                    · simp [hvid]
                      exact hterm v hvl
                  · simp at hvr
                    subst hvr
                    simp

/-- C9: committed states never contain a pending transaction record: if
every transaction in the state has a terminal status (completed or
failed), this still holds after any Transfer call — the record created as
pending inside the unit of work is transitioned to a terminal status
before commit, and aborted units of work leave the journal unchanged. -/
theorem C9_terminal_status_invariant
    (db : DB) (req : transactionService.TransferRequest) (f n : Nat)
    (h : db.terminalOnly) :
    ((transactionService.Transfer db req f n).2.1).terminalOnly := by
  unfold transactionService.Transfer
  rcases hp : transactionService.parseAccountIDs req.sourceAccountID
      req.destinationAccountID with ep | ids
  · simp only [hp]
    exact h
  · rcases hv : transactionService.validateTransfer ids.1 ids.2 req.amount with ev | u
    · simp only [hp, hv]
      exact h
    · simp only [hp, hv]
      unfold store.WithTransaction
      rcases hb : transactionService.transferBody ids.1 ids.2 req f n db with ⟨r, db2, evs⟩
      rcases r with re | rt
      · simp only [hb]
        exact h
      · simp only [hb]
        exact transferBody_ok_terminal h hb

/-- Witness for C9: a successful transfer starting from a journal with
only terminal records (here: empty) commits a state whose journal is
again all-terminal. -/
theorem C9_terminal_status_invariant_witness :
    ((transactionService.Transfer ⟨[⟨1, 10, 0, 0⟩, ⟨2, 5, 0, 0⟩], []⟩
        ⟨"1", "2", 3, none⟩ 42 9).2.1).terminalOnly :=
  C9_terminal_status_invariant ⟨[⟨1, 10, 0, 0⟩, ⟨2, 5, 0, 0⟩], []⟩
    ⟨"1", "2", 3, none⟩ 42 9 (by intro t ht; simp at ht)
